import Mathlib

/-!
A shallow embedding of the `dependency_injection` Go package
(`dependency_injection.go`, `lifetimes.go`) and proofs about it.

Modelling conventions:
* Go interface values stored in the container are modelled by `DepInj.Value`:
  an ordinary instance carries its runtime-type string and a numeric identity
  (two instances are Go-`==`-equal iff the `Value`s are equal); a
  `*DependencyInjection` pointer is `Value.reg p` where `p` is the pointer
  address; a `DependencyInjection` struct value is `Value.regStruct i` where
  `i` is its `info` pointer (`none` models the zero struct, whose `info` is
  nil) — two struct values are Go-`==`-equal iff their `info` pointers agree.
* The bucket map `map[string]map[interface{}]struct{}` is modelled as
  `String → List Value` where each list is duplicate-free by construction
  (`bucketInsert`).  Go's `for dep := range m` iterates in an unspecified
  order; the embedding fixes insertion order, so "the first match wins"
  refers to the oldest matching element.  Claims that depend on which of
  several matching elements is hit are settled relative to this
  determinisation (Go gives no stronger guarantee).
* Mutable state is explicit: a `Heap` maps `*DependencyInjection` pointer
  addresses to `info` pointers and `info` pointers to bucket stores, with
  allocation counters.  `runtime.SetFinalizer` registers a hook that only
  runs at a garbage collection; no collection is modelled, so the hook is
  never executed (matching the "no garbage collection in between" reading).
* `Any` is generic in `T`; the only data it uses about `T` are the string
  `reflect.TypeOf(res).String()`, the type assertion `dep.(T)`, and the
  initial contents of `*res` (the zero value of `T` at `MustNeed` call
  sites).  A request is therefore embedded as a `ReqType` record holding
  exactly these three components.
* The mutual recursion of `Any` through parent delegation is bounded by an
  explicit fuel parameter; `none` means the fuel ran out (the embedding's
  stand-in for non-termination), `some (v, true)` means `nil` error with
  `*res = v`, and `some (v, false)` means `ErrDependencyNotFound` with
  `*res = v` as the final contents of the caller's slot.
-/

namespace DepInj

/-- A Go interface value as stored in the container: an ordinary instance
(`obj typeName identity`), a `*DependencyInjection` pointer (`reg addr`), or
a `DependencyInjection` struct value (`regStruct infoPtr`, `none` = nil
`info`, the zero struct). -/
inductive Value where
  | obj : String → Nat → Value
  | reg : Nat → Value
  | regStruct : Option Nat → Value
deriving DecidableEq, Repr

/-- `reflect.TypeOf(v).String()` for a stored value. -/
def Value.typeString : Value → String
  | .obj t _ => t
  | .reg _ => "*dependency_injection.DependencyInjection"
  | .regStruct _ => "dependency_injection.DependencyInjection"

/-- The private `dependencyInjection` record: the bucket map
`dependencies map[string]map[interface{}]struct{}` plus the transient flag.
The `transient` field is Modelled from the spec: `SetTransient` /
`IsTransient` are called in `lifetimes.go` and documented in the README as
reserved internal methods, but their definition is not part of the provided
source files. -/
structure DI where
  buckets : String → List Value
  transient : Bool

/-- A freshly made `dependencyInjection`: empty bucket map, flag unset. -/
def emptyDI : DI := ⟨fun _ => [], false⟩

/-- Set insertion into a bucket (`m[dep] = struct{}{}` on a
`map[interface{}]struct{}`): a no-op when the value is already present,
otherwise appended. -/
def bucketInsert (l : List Value) (v : Value) : List Value :=
  if v ∈ l then l else l ++ [v]

/-- Body of `(*DependencyInjection).Add` acting on one registry's record:
insert `dep` into the bucket keyed `"*" + reflect.TypeOf(dep).String()` and
into the wildcard bucket keyed `""`. -/
def addToDI (d : DI) (v : Value) : DI :=
  { d with
    buckets := fun k =>
      if k = "*" ++ v.typeString ∨ k = "" then bucketInsert (d.buckets k) v
      else d.buckets k }

/-- Body of `(*DependencyInjection).Remove` acting on one registry's record:
delete `dep` from its exact-type bucket and from the wildcard bucket. -/
def removeFromDI (d : DI) (v : Value) : DI :=
  { d with
    buckets := fun k =>
      if k = "*" ++ v.typeString ∨ k = "" then (d.buckets k).filter (· != v)
      else d.buckets k }

/-- The mutable world: `ptrInfo` maps a `*DependencyInjection` pointer
address to the `info` pointer of the record it designates (distinct pointer
addresses may share one record, as `Ptr(*parent)` does in the pooled
lifetime); `infos` maps an `info` pointer to the record contents; the
counters allocate fresh pointer addresses, fresh records, and fresh
identities for constructor-built instances. -/
structure Heap where
  ptrInfo : Nat → Nat
  infos : Nat → DI
  nextPtr : Nat
  nextInfo : Nat
  nextObj : Nat

/-- The initial world: nothing allocated. -/
def emptyHeap : Heap := ⟨fun _ => 0, fun _ => emptyDI, 0, 0, 1⟩

/-- Allocate a fresh `*DependencyInjection` pointer address designating the
record `i` (the address-taking step of `Ptr`). -/
def allocPtr (h : Heap) (i : Nat) : Nat × Heap :=
  (h.nextPtr,
   { h with
     ptrInfo := fun q => if q = h.nextPtr then i else h.ptrInfo q,
     nextPtr := h.nextPtr + 1 })

/-- `NewDependencyInjection`: allocate a fresh record with an empty bucket
map and return a fresh pointer to it. -/
def newDI (h : Heap) : Nat × Heap :=
  allocPtr
    { h with
      infos := fun j => if j = h.nextInfo then emptyDI else h.infos j,
      nextInfo := h.nextInfo + 1 }
    h.nextInfo

/-- `(*DependencyInjection).Add` at the heap level: mutate the record
designated by pointer `p`. -/
def heapAdd (h : Heap) (p : Nat) (v : Value) : Heap :=
  { h with
    infos := fun i => if i = h.ptrInfo p then addToDI (h.infos i) v else h.infos i }

/-- `(*DependencyInjection).Remove` at the heap level. -/
def heapRemove (h : Heap) (p : Nat) (v : Value) : Heap :=
  { h with
    infos := fun i => if i = h.ptrInfo p then removeFromDI (h.infos i) v else h.infos i }

/-- Modelled from the spec: `SetTransient` (a reserved internal method whose
definition is not among the provided source files) records the transient
flag on the registry designated by `p`. -/
def setTransient (h : Heap) (p : Nat) (b : Bool) : Heap :=
  { h with
    infos := fun i =>
      if i = h.ptrInfo p then { h.infos i with transient := b } else h.infos i }

/-- The embedding of a generic type argument `T` of `Any`: `key` is
`reflect.TypeOf(res).String()` for `res : *T`, `sat v` is the type
assertion `v.(T)`, and `zero` is the Go zero value of `T` (the initial
contents of the `result` slot at `MustNeed`/`MustAny` call sites). -/
structure ReqType where
  key : String
  sat : Value → Bool
  zero : Value

/-- `reflect.TypeOf(res).String()` for `res : **DependencyInjection` — the
string the delegation guard of `Any` compares against. -/
def regTypeKey : String := "**dependency_injection.DependencyInjection"

/-- The request `Any[*DependencyInjection]` made by the delegation step:
its key is `regTypeKey` and its assertion accepts exactly the
`*DependencyInjection` pointers.  (Its `zero` component is unused: the
delegation call passes the current pointer `di` as the slot contents.) -/
def regReq : ReqType :=
  ⟨regTypeKey, fun v => match v with | .reg _ => true | _ => false, .regStruct none⟩

/-- The request for a concrete type whose runtime-type string is `t`: key
`"*" ++ t`, assertion "the stored value's runtime type is exactly `t`",
zero value an arbitrary `t`-typed instance with identity 0 (constructor
identities start at 1). -/
def exactReq (t : String) : ReqType :=
  ⟨"*" ++ t, fun v => v.typeString == t, .obj t 0⟩

/-- The request `Any[DependencyInjection]` made by the pooled lifetime: key
`"*dependency_injection.DependencyInjection"`, assertion "the value is a
`DependencyInjection` struct", zero value the zero struct. -/
def structDIReq : ReqType :=
  ⟨"*dependency_injection.DependencyInjection",
   fun v => match v with | .regStruct _ => true | _ => false,
   .regStruct none⟩

/-- One `for dep := range bucket` loop of `Any`: the first element passing
the type assertion, under the insertion-order determinisation. -/
def findSat (sat : Value → Bool) : List Value → Option Value
  | [] => none
  | v :: vs => if sat v then some v else findSat sat vs

/-- `Any[T](di, res)` with explicit fuel.  `di = none` is the nil registry.
Result `none`: fuel exhausted; `some (v, true)`: success, `*res` now `v`;
`some (v, false)`: `ErrDependencyNotFound`, `v` the (unchanged) slot
contents.  The delegation step first resolves a parent via
`Any[*DependencyInjection](di, &di)` (request `regReq`, slot containing
`di` itself) and, on success, retries the original request against the
parent. -/
def anyFuel (h : Heap) : Nat → ReqType → Option Nat → Value → Option (Value × Bool)
  | 0, _, _, _ => none
  | _ + 1, _, none, resv => some (resv, false)
  | fuel + 1, T, some di, resv =>
    match findSat T.sat ((h.infos (h.ptrInfo di)).buckets T.key) with
    | some v => some (v, true)
    | none =>
      match findSat T.sat ((h.infos (h.ptrInfo di)).buckets "") with
      | some v => some (v, true)
      | none =>
        if T.key ≠ regTypeKey ∧ Value.reg di ≠ resv then
          match anyFuel h fuel regReq (some di) (Value.reg di) with
          | none => none
          | some (Value.reg pdi, true) => anyFuel h fuel T (some pdi) resv
          | some _ => some (resv, false)
        else some (resv, false)

/-- `Any` unfolded one step at a live registry, for targeted rewriting at
symbolic fuel. -/
theorem anyFuel_succ (h : Heap) (fuel : Nat) (T : ReqType) (di : Nat)
    (resv : Value) :
    anyFuel h (fuel + 1) T (some di) resv =
      match findSat T.sat ((h.infos (h.ptrInfo di)).buckets T.key) with
      | some v => some (v, true)
      | none =>
        match findSat T.sat ((h.infos (h.ptrInfo di)).buckets "") with
        | some v => some (v, true)
        | none =>
          if T.key ≠ regTypeKey ∧ Value.reg di ≠ resv then
            match anyFuel h fuel regReq (some di) (Value.reg di) with
            | none => none
            | some (Value.reg pdi, true) => anyFuel h fuel T (some pdi) resv
            | some _ => some (resv, false)
          else some (resv, false) := rfl

/-- `MustNeed[T](di, newer)`: resolve, and on failure construct via `newer`
(which receives the registry and may mutate the world) and `Add` the result
to `di`.  The `transient` branch is Modelled from the spec: on a registry
whose transient flag is set, a cached hit is not reused — the constructor
runs and registers a brand-new instance ("each request manufactures … a new
one"); the consultation point of `IsTransient` is not among the provided
source files. -/
def mustNeed (h : Heap) (fuel : Nat) (T : ReqType) (di : Nat)
    (newer : Heap → Value × Heap) : Option (Value × Heap) :=
  match anyFuel h fuel T (some di) T.zero with
  | none => none
  | some (v, true) =>
    if (h.infos (h.ptrInfo di)).transient then
      let (w, h1) := newer h
      some (w, heapAdd h1 di w)
    else some (v, h)
  | some (_, false) =>
    let (w, h1) := newer h
    some (w, heapAdd h1 di w)

/-- A caller-supplied constructor that allocates a brand-new instance of
runtime type `t` (fresh identity) and leaves the registries untouched. -/
def allocCtor (t : String) (h : Heap) : Value × Heap :=
  (.obj t h.nextObj, { h with nextObj := h.nextObj + 1 })

/-- `NewScopedDependencyInjection(di)`: a fresh registry with the parent
registered as an ordinary dependency. -/
def scopedOn (h : Heap) (p : Nat) : Nat × Heap :=
  let r := newDI h
  (r.1, heapAdd r.2 r.1 (Value.reg p))

/-- `NewTransientDependencyInjection(di)`: a fresh registry with the parent
registered, then frozen via `SetTransient(true)`. -/
def transientOn (h : Heap) (p : Nat) : Nat × Heap :=
  let r := scopedOn h p
  (r.1, setTransient r.2 r.1 true)

/-- The constructor closure inside `NewPooledDependencyInjection`: make a
fresh empty registry `child`; take `clone := Ptr(*parent)` — a new pointer
to a struct sharing the parent's `info` record; `clone.Add(child)` (which
therefore mutates the parent's own record); register a finalizer on `clone`
(a garbage-collection hook, never run here since no collection is
modelled); return `clone`, which `MustNeed` dereferences to the struct
value. -/
def pooledCtor (h : Heap) (parentPtr : Nat) : Value × Heap :=
  let c := newDI h
  let pInfo := c.2.ptrInfo parentPtr
  let cl := allocPtr c.2 pInfo
  let h3 := heapAdd cl.2 cl.1 (Value.reg c.1)
  (Value.regStruct (some pInfo), h3)

/-- `NewPooledDependencyInjection(di)`:
`Ptr(MustNeed(di, func(parent) { … }))`.  The final `Ptr` allocates a new
pointer to the returned struct; the struct always carries a live `info`
record in the modelled executions, so the nil-`info` fallback is
unreachable there. -/
def pooled (h : Heap) (diPtr : Nat) (fuel : Nat) : Option (Nat × Heap) :=
  match mustNeed h fuel structDIReq diPtr (fun h0 => pooledCtor h0 diPtr) with
  | none => none
  | some (Value.regStruct (some i), h1) => some (allocPtr h1 i)
  | some _ => none

/-- The bucket record of a registry built by folding `Add` of ordinary
instances over a fresh record — the contents of a root registry populated
by caller `Add` calls. -/
def rootDI (objs : List (String × Nat)) : DI :=
  objs.foldl (fun d si => addToDI d (Value.obj si.1 si.2)) emptyDI

/-- A world holding one root registry (pointer 0) populated with the given
ordinary instances: `NewDependencyInjection()` followed by `Add` calls. -/
def rootWith (objs : List (String × Nat)) : Heap :=
  objs.foldl (fun h si => heapAdd h 0 (Value.obj si.1 si.2)) (newDI emptyHeap).2

/-- The bucket record of a registry holding exactly one dependency: a
pointer to its parent `p` (what `NewScopedDependencyInjection` builds). -/
def linkDI (p : Nat) : DI :=
  ⟨fun k => if k = regTypeKey ∨ k = "" then [Value.reg p] else [], false⟩

/-- A chain of registries: registry 0 is a bare root and registry `i + 1`
is `NewScopedDependencyInjection` of registry `i`.  Returns the innermost
registry's pointer and the world. -/
def chainN : Nat → Nat × Heap
  | 0 => newDI emptyHeap
  | n + 1 => scopedOn (chainN n).2 (chainN n).1

/-- A single registration mutation on one registry. -/
inductive RegOp where
  | add : Value → RegOp
  | remove : Value → RegOp

/-- Run one `Add`/`Remove` on a registry record. -/
def applyOp (d : DI) : RegOp → DI
  | .add v => addToDI d v
  | .remove v => removeFromDI d v

/-- Run a sequence of `Add`/`Remove` calls on a registry record. -/
def applyOps (d : DI) (ops : List RegOp) : DI :=
  ops.foldl applyOp d

/-- `Add` lifted to a possibly-nil interface argument (`none` is Go `nil`):
`reflect.TypeOf(nil)` yields a nil `reflect.Type`, and the `.String()` call
on it dereferences a nil pointer, so the nil case panics — modelled as
`none`.  A non-nil argument never panics. -/
def addGo : DI → Option Value → Option DI
  | _, none => none
  | d, some v => some (addToDI d v)

/-- `Remove` lifted to a possibly-nil interface argument; the type key is
computed the same way, so the nil case panics identically. -/
def removeGo : DI → Option Value → Option DI
  | _, none => none
  | d, some v => some (removeFromDI d v)

/-! ### Basic facts about bucket scans and bucket mutation -/

theorem findSat_eq_none {sat : Value → Bool} {l : List Value}
    (h : ∀ v ∈ l, sat v = false) : findSat sat l = none := by
  induction l with
  | nil => rfl
  | cons a l ih =>
    have ha : sat a = false := h a (List.mem_cons_self a l)
    simp only [findSat, ha, Bool.false_eq_true, if_false]
    exact ih fun v hv => h v (List.mem_cons_of_mem a hv)

theorem findSat_mem_sat {sat : Value → Bool} {l : List Value} {v : Value}
    (h : findSat sat l = some v) : v ∈ l ∧ sat v = true := by
  induction l with
  | nil => simp [findSat] at h
  | cons a l ih =>
    by_cases ha : sat a
    · simp only [findSat, if_pos ha, Option.some.injEq] at h
      exact ⟨h ▸ List.mem_cons_self a l, h ▸ ha⟩
    · simp only [findSat, if_neg ha] at h
      obtain ⟨hm, hs⟩ := ih h
      exact ⟨List.mem_cons_of_mem a hm, hs⟩

theorem findSat_isSome_of_mem {sat : Value → Bool} {l : List Value} {v : Value}
    (hv : v ∈ l) (hs : sat v = true) :
    ∃ w, findSat sat l = some w ∧ sat w = true := by
  induction l with
  | nil => cases hv
  | cons a l ih =>
    by_cases ha : sat a
    · exact ⟨a, by simp [findSat, ha], ha⟩
    · rcases List.mem_cons.mp hv with h | h
      · exact absurd (h ▸ hs) (by simpa using ha)
      · obtain ⟨w, hw, hws⟩ := ih h
        exact ⟨w, by simp [findSat, ha, hw], hws⟩

theorem findSat_of_unique {sat : Value → Bool} {l : List Value} {v : Value}
    (hv : v ∈ l) (hs : sat v = true)
    (hu : ∀ w ∈ l, sat w = true → w = v) : findSat sat l = some v := by
  induction l with
  | nil => cases hv
  | cons a l ih =>
    by_cases ha : sat a
    · have hav : a = v := hu a (List.mem_cons_self a l) ha
      subst hav
      simp [findSat, ha]
    · rcases List.mem_cons.mp hv with h | h
      · exact absurd (h ▸ hs) (by simpa using ha)
      · simpa [findSat, ha] using
          ih h fun w hw hws => hu w (List.mem_cons_of_mem a hw) hws

theorem findSat_append_none {sat : Value → Bool} {l1 l2 : List Value}
    (h : findSat sat l1 = none) :
    findSat sat (l1 ++ l2) = findSat sat l2 := by
  induction l1 with
  | nil => rfl
  | cons a l ih =>
    by_cases ha : sat a
    · simp [findSat, ha] at h
    · simp only [findSat, if_neg ha] at h ⊢
      exact ih h

theorem findSat_bucketInsert_of_none {sat : Value → Bool} {l : List Value}
    {v : Value} (h : findSat sat l = none) (hs : sat v = true) :
    findSat sat (bucketInsert l v) = some v := by
  unfold bucketInsert
  by_cases hm : v ∈ l
  · obtain ⟨w, hw, -⟩ := findSat_isSome_of_mem hm hs
    rw [if_pos hm]
    rw [hw] at h; cases h
  · rw [if_neg hm, findSat_append_none h]
    simp [findSat, hs]

theorem mem_bucketInsert {l : List Value} {v w : Value}
    (h : w ∈ bucketInsert l v) : w ∈ l ∨ w = v := by
  unfold bucketInsert at h
  by_cases hm : v ∈ l
  · rw [if_pos hm] at h; exact Or.inl h
  · rw [if_neg hm] at h
    rcases List.mem_append.mp h with h | h
    · exact Or.inl h
    · exact Or.inr (List.mem_singleton.mp h)

theorem self_mem_bucketInsert {l : List Value} (v : Value) :
    v ∈ bucketInsert l v := by
  unfold bucketInsert
  by_cases hm : v ∈ l
  · rwa [if_pos hm]
  · rw [if_neg hm]; simp

theorem addToDI_buckets_self (d : DI) (v : Value) :
    (addToDI d v).buckets ("*" ++ v.typeString)
      = bucketInsert (d.buckets ("*" ++ v.typeString)) v := by
  simp [addToDI]

theorem addToDI_buckets_wild (d : DI) (v : Value) :
    (addToDI d v).buckets "" = bucketInsert (d.buckets "") v := by
  simp [addToDI]

theorem addToDI_buckets_other (d : DI) (v : Value) {k : String}
    (h1 : k ≠ "*" ++ v.typeString) (h2 : k ≠ "") :
    (addToDI d v).buckets k = d.buckets k := by
  simp [addToDI, h1, h2]

theorem addToDI_transient (d : DI) (v : Value) :
    (addToDI d v).transient = d.transient := rfl

theorem mem_addToDI {d : DI} {v w : Value} {k : String}
    (h : w ∈ (addToDI d v).buckets k) : w ∈ d.buckets k ∨ w = v := by
  unfold addToDI at h
  by_cases hk : k = "*" ++ v.typeString ∨ k = ""
  · simp only [if_pos hk] at h
    exact mem_bucketInsert h
  · simp only [if_neg hk] at h
    exact Or.inl h

theorem mem_removeFromDI {d : DI} {v w : Value} {k : String}
    (h : w ∈ (removeFromDI d v).buckets k) :
    w ∈ d.buckets k ∧ ((k = "*" ++ v.typeString ∨ k = "") → w ≠ v) := by
  unfold removeFromDI at h
  by_cases hk : k = "*" ++ v.typeString ∨ k = ""
  · simp only [if_pos hk, List.mem_filter, bne_iff_ne] at h
    exact ⟨h.1, fun _ => h.2⟩
  · simp only [if_neg hk] at h
    exact ⟨h, fun hc => absurd hc hk⟩

theorem mem_removeFromDI_of_ne {d : DI} {v w : Value} {k : String}
    (h : w ∈ d.buckets k) (hne : w ≠ v) :
    w ∈ (removeFromDI d v).buckets k := by
  unfold removeFromDI
  by_cases hk : k = "*" ++ v.typeString ∨ k = ""
  · simp only [if_pos hk, List.mem_filter, bne_iff_ne]
    exact ⟨h, hne⟩
  · simpa only [if_neg hk] using h

theorem mem_bucketInsert_of_mem {l : List Value} {w : Value} (v : Value)
    (h : w ∈ l) : w ∈ bucketInsert l v := by
  unfold bucketInsert
  by_cases hm : v ∈ l
  · rwa [if_pos hm]
  · rw [if_neg hm]; exact List.mem_append_left _ h

/-! ### The registry bucket invariant (claim C8) -/

/-- The invariant maintained by `Add`/`Remove` on one registry record: a
value sitting in a non-wildcard bucket sits in the bucket named by its own
runtime type, and also in the wildcard bucket. -/
def StrongInv (d : DI) : Prop :=
  ∀ k v, v ∈ d.buckets k → k ≠ "" → k = "*" ++ v.typeString ∧ v ∈ d.buckets ""

theorem strongInv_empty : StrongInv emptyDI :=
  fun _ v h _ => absurd h (List.not_mem_nil v)

theorem strongInv_add {d : DI} (hd : StrongInv d) (w : Value) :
    StrongInv (addToDI d w) := by
  intro k v hv hk
  have hwild := addToDI_buckets_wild d w
  by_cases hk2 : k = "*" ++ w.typeString
  · subst hk2
    rw [addToDI_buckets_self] at hv
    rcases mem_bucketInsert hv with h | h
    · obtain ⟨h1, h2⟩ := hd _ v h hk
      exact ⟨h1, hwild ▸ mem_bucketInsert_of_mem w h2⟩
    · subst h
      exact ⟨rfl, hwild ▸ self_mem_bucketInsert v⟩
  · rw [addToDI_buckets_other d w hk2 hk] at hv
    obtain ⟨h1, h2⟩ := hd _ v hv hk
    exact ⟨h1, hwild ▸ mem_bucketInsert_of_mem w h2⟩

theorem strongInv_remove {d : DI} (hd : StrongInv d) (w : Value) :
    StrongInv (removeFromDI d w) := by
  intro k v hv hk
  obtain ⟨hmem, hcond⟩ := mem_removeFromDI hv
  obtain ⟨h1, h2⟩ := hd _ v hmem hk
  refine ⟨h1, ?_⟩
  have hvw : v ≠ w := by
    by_cases hkey : k = "*" ++ w.typeString
    · exact hcond (Or.inl hkey)
    · intro he; exact hkey (he ▸ h1)
  exact mem_removeFromDI_of_ne h2 hvw

theorem strongInv_applyOps {d : DI} (hd : StrongInv d) (ops : List RegOp) :
    StrongInv (applyOps d ops) := by
  induction ops generalizing d with
  | nil => exact hd
  | cons op ops ih =>
    cases op with
    | add w => exact ih (strongInv_add hd w)
    | remove w => exact ih (strongInv_remove hd w)

/-- C8: for every registry state reachable from a fresh registry by a
sequence of `Add` / `Remove` operations, every instance present in any
exact-type bucket is also present in the wildcard (empty-key) bucket —
`Add` inserts into both buckets and `Remove` deletes from both, so the
wildcard bucket is a superset of the union of the exact-type buckets. -/
theorem c8_wildcard_superset (ops : List RegOp) (k : String) (v : Value)
    (hk : k ≠ "") (hv : v ∈ (applyOps emptyDI ops).buckets k) :
    v ∈ (applyOps emptyDI ops).buckets "" :=
  ((strongInv_applyOps strongInv_empty ops) k v hv hk).2

/-- Witness for C8 at a concrete state: after `Add`ing one instance and
removing an unrelated one, the instance found in its exact-type bucket is
also in the wildcard bucket. -/
theorem c8_wildcard_superset_witness :
    (("*main.A" : String) ≠ "" ∧
        Value.obj "main.A" 1 ∈
          (applyOps emptyDI
              [RegOp.add (Value.obj "main.A" 1),
               RegOp.remove (Value.obj "main.B" 2)]).buckets "*main.A") ∧
      Value.obj "main.A" 1 ∈
        (applyOps emptyDI
            [RegOp.add (Value.obj "main.A" 1),
             RegOp.remove (Value.obj "main.B" 2)]).buckets "" :=
  ⟨⟨by decide, by decide⟩,
    c8_wildcard_superset
      [RegOp.add (Value.obj "main.A" 1), RegOp.remove (Value.obj "main.B" 2)]
      "*main.A" (Value.obj "main.A" 1) (by decide) (by decide)⟩

/-! ### Failure behaviour of `Any` (claims C9, C10) -/

/-- C9: whenever `Any` fails, it fails with the single distinguished
`ErrDependencyNotFound` outcome and the caller's output slot holds exactly
what it held before the call — on every failing path, including failed
parent delegation (first conjunct, by induction over the delegation walk),
and in particular a nil registry fails immediately with the slot untouched
(second conjunct). -/
theorem c9_failure_preserves_slot :
    (∀ (h : Heap) (fuel : Nat) (T : ReqType) (d : Option Nat) (resv r : Value),
        anyFuel h fuel T d resv = some (r, false) → r = resv) ∧
      (∀ (h : Heap) (fuel : Nat) (T : ReqType) (resv : Value),
        anyFuel h (fuel + 1) T none resv = some (resv, false)) := by
  constructor
  · intro h fuel
    induction fuel with
    | zero =>
      intro T d resv r hr
      simp [anyFuel] at hr
    | succ fuel ih =>
      intro T d resv r hr
      cases d with
      | none =>
        simp only [anyFuel, Option.some.injEq, Prod.mk.injEq] at hr
        exact hr.1.symm
      | some di =>
        simp only [anyFuel] at hr
        cases h1 : findSat T.sat ((h.infos (h.ptrInfo di)).buckets T.key) with
        | some v => rw [h1] at hr; simp at hr
        | none =>
          rw [h1] at hr
          cases h2 : findSat T.sat ((h.infos (h.ptrInfo di)).buckets "") with
          | some v => rw [h2] at hr; simp at hr
          | none =>
            rw [h2] at hr
            by_cases hg : T.key ≠ regTypeKey ∧ Value.reg di ≠ resv
            · rw [if_pos hg] at hr
              cases h3 : anyFuel h fuel regReq (some di) (Value.reg di) with
              | none => rw [h3] at hr; simp at hr
              | some pr =>
                rw [h3] at hr
                obtain ⟨pv, pb⟩ := pr
                cases pb with
                | true =>
                  cases pv with
                  | obj s i =>
                    simp only [Option.some.injEq, Prod.mk.injEq] at hr
                    exact hr.1.symm
                  | reg pdi => exact ih T (some pdi) resv r hr
                  | regStruct oi =>
                    simp only [Option.some.injEq, Prod.mk.injEq] at hr
                    exact hr.1.symm
                | false =>
                  cases pv with
                  | obj s i =>
                    simp only [Option.some.injEq, Prod.mk.injEq] at hr
                    exact hr.1.symm
                  | reg pdi =>
                    simp only [Option.some.injEq, Prod.mk.injEq] at hr
                    exact hr.1.symm
                  | regStruct oi =>
                    simp only [Option.some.injEq, Prod.mk.injEq] at hr
                    exact hr.1.symm
            · rw [if_neg hg] at hr
              simp only [Option.some.injEq, Prod.mk.injEq] at hr
              exact hr.1.symm
  · intro h fuel T resv
    rfl

/-- Witness for C9 at a concrete failing call: resolving any type from the
nil registry fails and leaves the slot as it was. -/
theorem c9_failure_preserves_slot_witness :
    anyFuel emptyHeap 1 (exactReq "main.Z") none (Value.obj "main.Z" 0)
        = some (Value.obj "main.Z" 0, false) ∧
      Value.obj "main.Z" 0 = Value.obj "main.Z" 0 :=
  ⟨rfl,
    c9_failure_preserves_slot.1 emptyHeap 1 (exactReq "main.Z") none
      (Value.obj "main.Z" 0) (Value.obj "main.Z" 0) rfl⟩

/-- C10: calling `Add` or `Remove` with a nil interface value panics
(`reflect.TypeOf` yields a nil `reflect.Type` whose `String()` call
dereferences nil) instead of returning normally or acting as a no-op. -/
theorem c10_nil_argument_panics (d : DI) :
    addGo d none = none ∧ removeGo d none = none :=
  ⟨rfl, rfl⟩

/-! ### Resolution after `Add` and capability matching (claims C1–C3) -/

theorem star_append_inj {a b : String} (h : "*" ++ a = "*" ++ b) : a = b := by
  have hd := congrArg String.data h
  simp only [String.data_append] at hd
  cases a; cases b
  exact congrArg String.mk (by simpa using hd)

theorem star_append_ne_empty (t : String) : ("*" ++ t : String) ≠ "" := by
  intro he
  have h0 := congrArg String.data he
  rw [String.data_append,
    show ("*" : String).data = ['*'] from rfl,
    show ("" : String).data = [] from rfl] at h0
  simp at h0

theorem heapAdd_self_bucket (h : Heap) (d : Nat) (x : Value) :
    ((heapAdd h d x).infos ((heapAdd h d x).ptrInfo d)).buckets
        ("*" ++ x.typeString)
      = bucketInsert ((h.infos (h.ptrInfo d)).buckets ("*" ++ x.typeString)) x := by
  show ((heapAdd h d x).infos (h.ptrInfo d)).buckets ("*" ++ x.typeString) = _
  simp only [heapAdd, if_pos rfl]
  exact addToDI_buckets_self _ x

/-- C1 (amended): after `Add(x)`, an immediate `Any` for x's exact runtime
type succeeds and returns `x`, provided the registry held no prior instance
of that exact runtime type (e.g. immediately after construction).  When the
exact-type bucket already holds other instances, resolution still succeeds
but hands back whichever stored same-type instance the bucket scan reaches
first, which need not be `x` (see the counterexample). -/
theorem c1_add_then_resolve_exact (h : Heap) (d : Nat) (x resv : Value)
    (hempty : (h.infos (h.ptrInfo d)).buckets ("*" ++ x.typeString) = []) :
    anyFuel (heapAdd h d x) 1 (exactReq x.typeString) (some d) resv
      = some (x, true) := by
  have hb : ((heapAdd h d x).infos ((heapAdd h d x).ptrInfo d)).buckets
      ("*" ++ x.typeString) = [x] := by
    rw [heapAdd_self_bucket, hempty]
    rfl
  have hscan : findSat (exactReq x.typeString).sat
      (((heapAdd h d x).infos ((heapAdd h d x).ptrInfo d)).buckets
        (exactReq x.typeString).key) = some x := by
    show findSat _ (((heapAdd h d x).infos ((heapAdd h d x).ptrInfo d)).buckets
      ("*" ++ x.typeString)) = some x
    rw [hb]
    simp [findSat, exactReq]
  simp only [anyFuel, hscan]

/-- C1 counterexample: the claim as stated fails when the registry already
holds another instance of the same runtime type.  Here `main.A` instance 1
is registered first; after `Add` of instance 2, resolving the exact type
`main.A` hands back instance 1, not the just-added instance 2. -/
theorem c1_counterexample :
    anyFuel
        (heapAdd (heapAdd (newDI emptyHeap).2 0 (Value.obj "main.A" 1)) 0
          (Value.obj "main.A" 2))
        1 (exactReq "main.A") (some 0) (exactReq "main.A").zero
      = some (Value.obj "main.A" 1, true)
    ∧ Value.obj "main.A" 1 ≠ Value.obj "main.A" 2 :=
  ⟨by decide, by decide⟩

/-- Witness for the amended C1 on a fresh registry. -/
theorem c1_add_then_resolve_exact_witness :
    (((newDI emptyHeap).2.infos ((newDI emptyHeap).2.ptrInfo 0)).buckets
        ("*" ++ (Value.obj "main.A" 1).typeString) = []) ∧
      anyFuel (heapAdd (newDI emptyHeap).2 0 (Value.obj "main.A" 1)) 1
          (exactReq (Value.obj "main.A" 1).typeString) (some 0)
          (Value.obj "main.A" 0)
        = some (Value.obj "main.A" 1, true) :=
  ⟨by decide,
    c1_add_then_resolve_exact (newDI emptyHeap).2 0 (Value.obj "main.A" 1)
      (Value.obj "main.A" 0) (by decide)⟩

/-- C2 (amended): an instance `x` registered under its concrete type and
satisfying the requested capability `T` is returned by `Any` for `T` even
though `x` was never registered under `T`'s own key (the exact-bucket scan
for `T.key` finds no satisfying element and the wildcard bucket supplies
`x`), provided `x` is the only registered instance satisfying `T`.  With
several satisfying instances, resolution still succeeds but returns
whichever one the wildcard scan reaches first (see the counterexample). -/
theorem c2_capability_resolve (h : Heap) (d : Nat) (T : ReqType)
    (x resv : Value)
    (hx : x ∈ (h.infos (h.ptrInfo d)).buckets "")
    (hsat : T.sat x = true)
    (hexact : findSat T.sat ((h.infos (h.ptrInfo d)).buckets T.key) = none)
    (huniq : ∀ w ∈ (h.infos (h.ptrInfo d)).buckets "", T.sat w = true → w = x) :
    anyFuel h 1 T (some d) resv = some (x, true) := by
  have hwild : findSat T.sat ((h.infos (h.ptrInfo d)).buckets "") = some x :=
    findSat_of_unique hx hsat huniq
  simp only [anyFuel, hexact, hwild]

/-- C2 counterexample: `main.C` instance 2 is registered under its concrete
type and satisfies the requested capability, but a previously registered
`main.D` instance also satisfies it, and the wildcard scan returns that
other instance instead of `x`. -/
theorem c2_counterexample :
    anyFuel
        (heapAdd (heapAdd (newDI emptyHeap).2 0 (Value.obj "main.D" 1)) 0
          (Value.obj "main.C" 2))
        1
        ⟨"*main.I",
         fun v => v.typeString == "main.C" || v.typeString == "main.D",
         Value.obj "main.I" 0⟩
        (some 0) (Value.obj "main.I" 0)
      = some (Value.obj "main.D" 1, true)
    ∧ Value.obj "main.D" 1 ≠ Value.obj "main.C" 2 :=
  ⟨by decide, by decide⟩

/-- Witness for the amended C2: one registered `main.C` instance, a
capability request keyed `*main.I` satisfied exactly by `main.C` values. -/
theorem c2_capability_resolve_witness :
    (Value.obj "main.C" 1 ∈
        ((heapAdd (newDI emptyHeap).2 0 (Value.obj "main.C" 1)).infos
            ((heapAdd (newDI emptyHeap).2 0 (Value.obj "main.C" 1)).ptrInfo 0)).buckets
          "") ∧
      anyFuel (heapAdd (newDI emptyHeap).2 0 (Value.obj "main.C" 1)) 1
          ⟨"*main.I", fun v => v.typeString == "main.C", Value.obj "main.I" 0⟩
          (some 0) (Value.obj "main.I" 0)
        = some (Value.obj "main.C" 1, true) :=
  ⟨by decide,
    c2_capability_resolve (heapAdd (newDI emptyHeap).2 0 (Value.obj "main.C" 1)) 0
      ⟨"*main.I", fun v => v.typeString == "main.C", Value.obj "main.I" 0⟩
      (Value.obj "main.C" 1) (Value.obj "main.I" 0)
      (by decide) (by decide) (by decide) (by decide)⟩

/-- The record of a freshly scoped child: exactly the parent pointer,
registered in its exact-type bucket and the wildcard bucket. -/
theorem scoped_child_info (h : Heap) (p : Nat) :
    (scopedOn h p).2.infos ((scopedOn h p).2.ptrInfo (scopedOn h p).1)
      = addToDI emptyDI (Value.reg p) := by
  simp [scopedOn, newDI, allocPtr, heapAdd]

theorem link_bucket_reg (p : Nat) :
    (addToDI emptyDI (Value.reg p)).buckets regTypeKey = [Value.reg p] := by
  rw [show regTypeKey = "*" ++ (Value.reg p).typeString from rfl,
    addToDI_buckets_self]
  rfl

theorem link_bucket_other (p : Nat) {k : String} (h1 : k ≠ regTypeKey)
    (h2 : k ≠ "") :
    (addToDI emptyDI (Value.reg p)).buckets k = [] :=
  addToDI_buckets_other emptyDI (Value.reg p) h1 h2

theorem mem_link_bucket {p : Nat} {k : String} {y : Value}
    (h : y ∈ (addToDI emptyDI (Value.reg p)).buckets k) : y = Value.reg p := by
  rcases mem_addToDI h with h | h
  · exact absurd h (List.not_mem_nil y)
  · exact h

/-- C3 (amended): a child built by `NewScopedDependencyInjection(parent)`
resolves a request for an ordinary runtime type by delegation and hands
back exactly the instance the parent's own resolution produces — `y`
whenever the parent resolves to `y` (in particular whenever `y` is the only
instance of its type in the parent) — while the child itself never
contains `y`, only the parent pointer.  When the parent holds several
same-type instances, the delegated answer is the parent's first-reached
one, which need not be a nominated `y` (see the counterexample). -/
theorem c3_scoped_delegation (h : Heap) (p : Nat) (t : String)
    (y resv : Value) (f : Nat)
    (ht : t ≠ "*dependency_injection.DependencyInjection")
    (hresv : ∀ q, resv ≠ Value.reg q)
    (hparent :
      anyFuel (scopedOn h p).2 f (exactReq t) (some p) resv = some (y, true)) :
    anyFuel (scopedOn h p).2 (f + 1) (exactReq t) (some (scopedOn h p).1) resv
        = some (y, true)
    ∧ (y ≠ Value.reg p → ∀ k,
        y ∉ ((scopedOn h p).2.infos
              ((scopedOn h p).2.ptrInfo (scopedOn h p).1)).buckets k) := by
  have hkey : ("*" ++ t : String) ≠ regTypeKey := by
    intro he
    exact ht (star_append_inj
      (he.trans (show regTypeKey = "*" ++ "*dependency_injection.DependencyInjection" from rfl)))
  have hchild := scoped_child_info h p
  constructor
  · cases f with
    | zero => simp [anyFuel] at hparent
    | succ f0 =>
      have hscan1 : findSat (exactReq t).sat
          (((scopedOn h p).2.infos
              ((scopedOn h p).2.ptrInfo (scopedOn h p).1)).buckets
            (exactReq t).key) = none := by
        rw [hchild]
        rw [show (exactReq t).key = "*" ++ t from rfl,
          link_bucket_other p hkey (star_append_ne_empty t)]
        rfl
      have hscan2 : findSat (exactReq t).sat
          (((scopedOn h p).2.infos
              ((scopedOn h p).2.ptrInfo (scopedOn h p).1)).buckets "") = none := by
        rw [hchild, addToDI_buckets_wild]
        refine findSat_eq_none fun v hv => ?_
        rcases mem_bucketInsert hv with hv | hv
        · exact absurd hv (List.not_mem_nil v)
        · subst hv
          simpa [exactReq, Value.typeString] using fun he => ht he.symm
      have hinner : anyFuel (scopedOn h p).2 (f0 + 1) regReq
          (some (scopedOn h p).1) (Value.reg (scopedOn h p).1)
          = some (Value.reg p, true) := by
        have hscan3 : findSat regReq.sat
            (((scopedOn h p).2.infos
                ((scopedOn h p).2.ptrInfo (scopedOn h p).1)).buckets
              regReq.key) = some (Value.reg p) := by
          rw [hchild, show regReq.key = regTypeKey from rfl, link_bucket_reg]
          rfl
        rw [anyFuel_succ, hscan3]
      have hguard : (exactReq t).key ≠ regTypeKey
          ∧ Value.reg (scopedOn h p).1 ≠ resv :=
        ⟨hkey, (hresv (scopedOn h p).1).symm⟩
      rw [anyFuel_succ]
      simp only [hscan1, hscan2, if_pos hguard, hinner]
      exact hparent
  · intro hy k hmem
    exact hy (mem_link_bucket (hchild ▸ hmem))

/-- C3 counterexample: the parent holds two `main.A` instances; with
`y` the second one, the scoped child's delegated resolution returns the
first instance, not `y`. -/
theorem c3_counterexample :
    anyFuel
        (scopedOn
          (heapAdd (heapAdd (newDI emptyHeap).2 0 (Value.obj "main.A" 1)) 0
            (Value.obj "main.A" 2))
          0).2
        3 (exactReq "main.A")
        (some (scopedOn
          (heapAdd (heapAdd (newDI emptyHeap).2 0 (Value.obj "main.A" 1)) 0
            (Value.obj "main.A" 2))
          0).1)
        (exactReq "main.A").zero
      = some (Value.obj "main.A" 1, true)
    ∧ Value.obj "main.A" 1 ≠ Value.obj "main.A" 2 :=
  ⟨by decide, by decide⟩

/-- Witness for the amended C3: parent holding a single `main.A` instance;
the scoped child's resolution returns it by delegation. -/
theorem c3_scoped_delegation_witness :
    (("main.A" : String) ≠ "*dependency_injection.DependencyInjection") ∧
      (anyFuel (scopedOn (heapAdd (newDI emptyHeap).2 0 (Value.obj "main.A" 7)) 0).2 2
          (exactReq "main.A") (some 0) (Value.obj "main.A" 0)
        = some (Value.obj "main.A" 7, true)) ∧
      anyFuel (scopedOn (heapAdd (newDI emptyHeap).2 0 (Value.obj "main.A" 7)) 0).2 3
          (exactReq "main.A")
          (some (scopedOn (heapAdd (newDI emptyHeap).2 0 (Value.obj "main.A" 7)) 0).1)
          (Value.obj "main.A" 0)
        = some (Value.obj "main.A" 7, true) :=
  ⟨by decide, by decide,
    (c3_scoped_delegation (heapAdd (newDI emptyHeap).2 0 (Value.obj "main.A" 7)) 0
        "main.A" (Value.obj "main.A" 7) (Value.obj "main.A" 0) 2 (by decide)
        (fun q hq => Value.noConfusion hq) (by decide)).1⟩

/-! ### Termination of the delegation walk on a finite chain (claim C4) -/

theorem scopedOn_fst (h : Heap) (p : Nat) : (scopedOn h p).1 = h.nextPtr := rfl

theorem scopedOn_nextPtr (h : Heap) (p : Nat) :
    (scopedOn h p).2.nextPtr = h.nextPtr + 1 := rfl

theorem scopedOn_nextInfo (h : Heap) (p : Nat) :
    (scopedOn h p).2.nextInfo = h.nextInfo + 1 := rfl

theorem scopedOn_ptrInfo (h : Heap) (p q : Nat) :
    (scopedOn h p).2.ptrInfo q
      = if q = h.nextPtr then h.nextInfo else h.ptrInfo q := rfl

theorem scopedOn_infos (h : Heap) (p i : Nat) :
    (scopedOn h p).2.infos i
      = if i = h.nextInfo then addToDI emptyDI (Value.reg p) else h.infos i := by
  simp only [scopedOn, newDI, allocPtr, heapAdd]
  by_cases hi : i = h.nextInfo
  · subst hi; simp
  · simp [hi]

theorem chain_nextPtr (n : Nat) : (chainN n).2.nextPtr = n + 1 := by
  induction n with
  | zero => rfl
  | succ n ih => rw [chainN, scopedOn_nextPtr, ih]

theorem chain_nextInfo (n : Nat) : (chainN n).2.nextInfo = n + 1 := by
  induction n with
  | zero => rfl
  | succ n ih => rw [chainN, scopedOn_nextInfo, ih]

theorem chain_fst (n : Nat) : (chainN n).1 = n := by
  cases n with
  | zero => rfl
  | succ n => rw [chainN, scopedOn_fst, chain_nextPtr]

theorem chain_ptrInfo (n : Nat) : ∀ k, k ≤ n → (chainN n).2.ptrInfo k = k := by
  induction n with
  | zero =>
    intro k hk
    interval_cases k
    rfl
  | succ n ih =>
    intro k hk
    rw [chainN, scopedOn_ptrInfo, chain_nextPtr, chain_nextInfo]
    by_cases hkn : k = n + 1
    · rw [if_pos hkn, hkn]
    · rw [if_neg hkn]
      exact ih k (Nat.lt_succ_iff.mp (Nat.lt_of_le_of_ne hk hkn))

theorem chain_infos_zero (n : Nat) : (chainN n).2.infos 0 = emptyDI := by
  induction n with
  | zero => rfl
  | succ n ih =>
    rw [chainN, scopedOn_infos, chain_nextInfo, if_neg (by omega), ih]

theorem chain_infos_succ (n : Nat) :
    ∀ k, k + 1 ≤ n → (chainN n).2.infos (k + 1) = addToDI emptyDI (Value.reg k) := by
  induction n with
  | zero => intro k hk; omega
  | succ n ih =>
    intro k hk
    rw [chainN, scopedOn_infos, chain_nextInfo, chain_fst]
    by_cases hkn : k + 1 = n + 1
    · rw [if_pos hkn, Nat.succ_injective hkn]
    · rw [if_neg hkn]
      exact ih k (by omega)

theorem findSat_link_none {sat : Value → Bool} (p : Nat)
    (hsat : ∀ q, sat (Value.reg q) = false) (k : String) :
    findSat sat ((addToDI emptyDI (Value.reg p)).buckets k) = none :=
  findSat_eq_none fun v hv => by rw [mem_link_bucket hv]; exact hsat p

theorem chain_resolve_notfound (N : Nat) (T : ReqType) (resv : Value)
    (hsat : ∀ q, T.sat (Value.reg q) = false) :
    ∀ k, k ≤ N →
      anyFuel (chainN N).2 (k + 2) T (some k) resv = some (resv, false) := by
  intro k
  induction k with
  | zero =>
    intro _
    have hb : (chainN N).2.infos ((chainN N).2.ptrInfo 0) = emptyDI := by
      rw [chain_ptrInfo N 0 (Nat.zero_le N), chain_infos_zero]
    have hscan : ∀ key, findSat T.sat
        (((chainN N).2.infos ((chainN N).2.ptrInfo 0)).buckets key) = none := by
      intro key; rw [hb]; rfl
    have hscanR : ∀ key, findSat regReq.sat
        (((chainN N).2.infos ((chainN N).2.ptrInfo 0)).buckets key) = none := by
      intro key; rw [hb]; rfl
    rw [anyFuel_succ, hscan, hscan]
    by_cases hg : T.key ≠ regTypeKey ∧ Value.reg 0 ≠ resv
    · rw [if_pos hg, anyFuel_succ, hscanR, hscanR,
        if_neg (fun hc => hc.1 rfl)]
    · rw [if_neg hg]
  | succ k ih =>
    intro hk
    have hb : (chainN N).2.infos ((chainN N).2.ptrInfo (k + 1))
        = addToDI emptyDI (Value.reg k) := by
      rw [chain_ptrInfo N (k + 1) hk, chain_infos_succ N k hk]
    have hscan : ∀ key, findSat T.sat
        (((chainN N).2.infos ((chainN N).2.ptrInfo (k + 1))).buckets key) = none := by
      intro key; rw [hb]; exact findSat_link_none k hsat key
    rw [anyFuel_succ, hscan, hscan]
    by_cases hg : T.key ≠ regTypeKey ∧ Value.reg (k + 1) ≠ resv
    · have hinner : anyFuel (chainN N).2 (k + 2) regReq (some (k + 1))
          (Value.reg (k + 1)) = some (Value.reg k, true) := by
        have hscanR : findSat regReq.sat
            (((chainN N).2.infos ((chainN N).2.ptrInfo (k + 1))).buckets
              regReq.key) = some (Value.reg k) := by
          rw [hb, show regReq.key = regTypeKey from rfl, link_bucket_reg]
          rfl
        rw [anyFuel_succ, hscanR]
      rw [if_pos hg]
      simp only [hinner]
      exact ih (by omega)
    · rw [if_neg hg]

/-- C4: on a finite acyclic chain of registries linked by parent
registration (a bare root under `n` nested scoped children), resolving a
type registered nowhere in the chain terminates — explicit fuel `n + 2`
suffices, one step per delegation hop plus the root's failed parent lookup
— and returns the `NotFound` outcome with the slot untouched; the walk
stops because the outermost registry has no parent reference to resolve. -/
theorem c4_chain_terminates_notfound (n : Nat) (T : ReqType) (resv : Value)
    (hsat : ∀ q, T.sat (Value.reg q) = false) :
    anyFuel (chainN n).2 (n + 2) T (some (chainN n).1) resv
      = some (resv, false) := by
  rw [chain_fst]
  exact chain_resolve_notfound n T resv hsat n (Nat.le_refl n)

/-- Witness for C4: a chain of three registries, a request for an ordinary
type never registered; fuel 4 returns `NotFound` with the slot intact. -/
theorem c4_chain_terminates_notfound_witness :
    (∀ q, (exactReq "main.Z").sat (Value.reg q) = false) ∧
      anyFuel (chainN 2).2 4 (exactReq "main.Z") (some (chainN 2).1)
          (Value.obj "main.Z" 0)
        = some (Value.obj "main.Z" 0, false) :=
  ⟨fun _ => rfl,
    c4_chain_terminates_notfound 2 (exactReq "main.Z") (Value.obj "main.Z" 0)
      (fun _ => rfl)⟩

/-! ### Populated root registries and get-or-construct (claims C5–C7) -/

theorem foldAdd_ptrInfo (objs : List (String × Nat)) (h : Heap) :
    (objs.foldl (fun h2 si => heapAdd h2 0 (Value.obj si.1 si.2)) h).ptrInfo
      = h.ptrInfo := by
  induction objs generalizing h with
  | nil => rfl
  | cons a objs ih => rw [List.foldl_cons, ih]; rfl

theorem foldAdd_nextPtr (objs : List (String × Nat)) (h : Heap) :
    (objs.foldl (fun h2 si => heapAdd h2 0 (Value.obj si.1 si.2)) h).nextPtr
      = h.nextPtr := by
  induction objs generalizing h with
  | nil => rfl
  | cons a objs ih => rw [List.foldl_cons, ih]; rfl

theorem foldAdd_nextInfo (objs : List (String × Nat)) (h : Heap) :
    (objs.foldl (fun h2 si => heapAdd h2 0 (Value.obj si.1 si.2)) h).nextInfo
      = h.nextInfo := by
  induction objs generalizing h with
  | nil => rfl
  | cons a objs ih => rw [List.foldl_cons, ih]; rfl

theorem foldAdd_nextObj (objs : List (String × Nat)) (h : Heap) :
    (objs.foldl (fun h2 si => heapAdd h2 0 (Value.obj si.1 si.2)) h).nextObj
      = h.nextObj := by
  induction objs generalizing h with
  | nil => rfl
  | cons a objs ih => rw [List.foldl_cons, ih]; rfl

theorem foldAdd_infos (objs : List (String × Nat)) (h : Heap) (i : Nat) :
    (objs.foldl (fun h2 si => heapAdd h2 0 (Value.obj si.1 si.2)) h).infos i
      = if i = h.ptrInfo 0 then
          objs.foldl (fun d si => addToDI d (Value.obj si.1 si.2)) (h.infos i)
        else h.infos i := by
  induction objs generalizing h with
  | nil =>
    by_cases hi : i = h.ptrInfo 0 <;> simp [hi]
  | cons a objs ih =>
    rw [List.foldl_cons, ih]
    show (if i = h.ptrInfo 0 then _ else _) = _
    by_cases hi : i = h.ptrInfo 0
    · rw [if_pos hi, if_pos hi]
      have hone : (heapAdd h 0 (Value.obj a.1 a.2)).infos i
          = addToDI (h.infos i) (Value.obj a.1 a.2) := by
        simp [heapAdd, hi]
      rw [hone, List.foldl_cons]
    · rw [if_neg hi, if_neg hi]
      simp [heapAdd, hi]

theorem rootWith_ptrInfo (objs : List (String × Nat)) (q : Nat) :
    (rootWith objs).ptrInfo q = 0 := by
  rw [rootWith, foldAdd_ptrInfo]
  simp [newDI, allocPtr, emptyHeap]

theorem rootWith_nextPtr (objs : List (String × Nat)) :
    (rootWith objs).nextPtr = 1 := by
  rw [rootWith, foldAdd_nextPtr]; rfl

theorem rootWith_nextInfo (objs : List (String × Nat)) :
    (rootWith objs).nextInfo = 1 := by
  rw [rootWith, foldAdd_nextInfo]; rfl

theorem rootWith_nextObj (objs : List (String × Nat)) :
    (rootWith objs).nextObj = 1 := by
  rw [rootWith, foldAdd_nextObj]; rfl

theorem rootWith_infos_zero (objs : List (String × Nat)) :
    (rootWith objs).infos 0 = rootDI objs := by
  rw [rootWith, foldAdd_infos,
    show (newDI emptyHeap).2.ptrInfo 0 = 0 from rfl, if_pos rfl]
  rfl

theorem rootWith_infos_ne (objs : List (String × Nat)) {i : Nat} (hi : i ≠ 0) :
    (rootWith objs).infos i = emptyDI := by
  rw [rootWith, foldAdd_infos,
    show (newDI emptyHeap).2.ptrInfo 0 = 0 from rfl, if_neg hi]
  show (if i = 0 then emptyDI else emptyHeap.infos i) = emptyDI
  rw [if_neg hi]
  rfl

theorem foldAddDI_transient (objs : List (String × Nat)) (d : DI) :
    (objs.foldl (fun d2 si => addToDI d2 (Value.obj si.1 si.2)) d).transient
      = d.transient := by
  induction objs generalizing d with
  | nil => rfl
  | cons a objs ih => rw [List.foldl_cons, ih]; rfl

theorem rootDI_transient (objs : List (String × Nat)) :
    (rootDI objs).transient = false := by
  rw [rootDI, foldAddDI_transient]; rfl

theorem mem_rootDI (objs : List (String × Nat)) (k : String) (v : Value)
    (hv : v ∈ (rootDI objs).buckets k) :
    ∃ si ∈ objs, v = Value.obj si.1 si.2 := by
  have main : ∀ (os : List (String × Nat)) (d : DI),
      v ∈ ((os.foldl (fun d2 si => addToDI d2 (Value.obj si.1 si.2)) d).buckets k) →
        v ∈ d.buckets k ∨ ∃ si ∈ os, v = Value.obj si.1 si.2 := by
    intro os
    induction os with
    | nil => intro d hd; exact Or.inl hd
    | cons a os ih =>
      intro d hd
      rw [List.foldl_cons] at hd
      rcases ih (addToDI d (Value.obj a.1 a.2)) hd with hd | hd
      · rcases mem_addToDI hd with hd | hd
        · exact Or.inl hd
        · exact Or.inr ⟨a, List.mem_cons_self a os, hd⟩
      · obtain ⟨si, hsi, he⟩ := hd
        exact Or.inr ⟨si, List.mem_cons_of_mem a hsi, he⟩
  rcases main objs emptyDI hv with hd | hd
  · exact absurd hd (List.not_mem_nil v)
  · exact hd

theorem findSat_rootDI_isReg (objs : List (String × Nat)) (k : String) :
    findSat regReq.sat ((rootDI objs).buckets k) = none :=
  findSat_eq_none fun v hv => by
    obtain ⟨si, -, he⟩ := mem_rootDI objs k v hv
    subst he; rfl

theorem findSat_rootDI_isStruct (objs : List (String × Nat)) (k : String) :
    findSat structDIReq.sat ((rootDI objs).buckets k) = none :=
  findSat_eq_none fun v hv => by
    obtain ⟨si, -, he⟩ := mem_rootDI objs k v hv
    subst he; rfl

theorem findSat_rootDI_exact (objs : List (String × Nat)) (t : String)
    (hno : ∀ si ∈ objs, si.1 ≠ t) (k : String) :
    findSat (exactReq t).sat ((rootDI objs).buckets k) = none :=
  findSat_eq_none fun v hv => by
    obtain ⟨si, hsi, he⟩ := mem_rootDI objs k v hv
    subst he
    simpa [exactReq, Value.typeString] using hno si hsi

/-- A registry whose record holds no parent reference and no instance
satisfying `T` resolves to `NotFound` (local scans fail, then the inner
parent lookup fails, then the guard falls through). -/
theorem resolve_fail_at (h : Heap) (r : Nat) (T : ReqType) (resv : Value)
    (f : Nat)
    (hscanT : ∀ k, findSat T.sat ((h.infos (h.ptrInfo r)).buckets k) = none)
    (hscanR : ∀ k, findSat regReq.sat ((h.infos (h.ptrInfo r)).buckets k) = none) :
    anyFuel h (f + 2) T (some r) resv = some (resv, false) := by
  rw [anyFuel_succ, hscanT, hscanT]
  by_cases hg : T.key ≠ regTypeKey ∧ Value.reg r ≠ resv
  · rw [if_pos hg, anyFuel_succ, hscanR, hscanR, if_neg (fun hc => hc.1 rfl)]
  · rw [if_neg hg]

/-- A registry whose record holds no parent reference always answers within
fuel `f + 2` (success or `NotFound`, never fuel exhaustion). -/
theorem resolve_isSome_at (h : Heap) (r : Nat) (T : ReqType) (resv : Value)
    (f : Nat)
    (hscanR : ∀ k, findSat regReq.sat ((h.infos (h.ptrInfo r)).buckets k) = none) :
    ∃ res, anyFuel h (f + 2) T (some r) resv = some res := by
  rw [anyFuel_succ]
  cases hc1 : findSat T.sat ((h.infos (h.ptrInfo r)).buckets T.key) with
  | some v => exact ⟨(v, true), rfl⟩
  | none =>
    cases hc2 : findSat T.sat ((h.infos (h.ptrInfo r)).buckets "") with
    | some v => exact ⟨(v, true), rfl⟩
    | none =>
      by_cases hg : T.key ≠ regTypeKey ∧ Value.reg r ≠ resv
      · rw [if_pos hg, anyFuel_succ, hscanR, hscanR, if_neg (fun hc => hc.1 rfl)]
        exact ⟨(resv, false), rfl⟩
      · rw [if_neg hg]
        exact ⟨(resv, false), rfl⟩

/-- A local hit: when the exact-bucket scan of the requested key finds a
satisfying element, `Any` returns it at once. -/
theorem resolve_local_hit (h : Heap) (r : Nat) (T : ReqType) (resv v : Value)
    (f : Nat)
    (hscan : findSat T.sat ((h.infos (h.ptrInfo r)).buckets T.key) = some v) :
    anyFuel h (f + 1) T (some r) resv = some (v, true) := by
  rw [anyFuel_succ, hscan]

/-- Delegation through a registry whose record is exactly one parent link:
local scans fail (no stored value satisfies `T`), the inner lookup finds the
parent pointer, and the original request is retried against the parent. -/
theorem link_delegate (h : Heap) (c p : Nat) (T : ReqType) (resv : Value)
    (f0 : Nat)
    (hbuck : ∀ k, (h.infos (h.ptrInfo c)).buckets k
      = (addToDI emptyDI (Value.reg p)).buckets k)
    (hkey : T.key ≠ regTypeKey)
    (hsat : ∀ q, T.sat (Value.reg q) = false)
    (hresv : Value.reg c ≠ resv) :
    anyFuel h (f0 + 2) T (some c) resv = anyFuel h (f0 + 1) T (some p) resv := by
  have hscan : ∀ k, findSat T.sat ((h.infos (h.ptrInfo c)).buckets k) = none := by
    intro k; rw [hbuck]; exact findSat_link_none p hsat k
  rw [anyFuel_succ, hscan, hscan, if_pos ⟨hkey, hresv⟩]
  have hinner : anyFuel h (f0 + 1) regReq (some c) (Value.reg c)
      = some (Value.reg p, true) := by
    have hscanR : findSat regReq.sat
        ((h.infos (h.ptrInfo c)).buckets regReq.key) = some (Value.reg p) := by
      rw [hbuck, show regReq.key = regTypeKey from rfl, link_bucket_reg]
      rfl
    rw [anyFuel_succ, hscanR]
  rw [hinner]

/-- `MustNeed` on a resolution hit against a non-transient registry hands
back the cached instance and leaves the world unchanged. -/
theorem mustNeed_found (h : Heap) (fuel : Nat) (T : ReqType) (di : Nat)
    (newer : Heap → Value × Heap) (v : Value)
    (hres : anyFuel h fuel T (some di) T.zero = some (v, true))
    (htr : (h.infos (h.ptrInfo di)).transient = false) :
    mustNeed h fuel T di newer = some (v, h) := by
  rw [mustNeed, hres]
  simp [htr]

/-- `MustNeed` on a resolution miss constructs, registers the new instance
in the registry it was called on, and returns it. -/
theorem mustNeed_notfound (h : Heap) (fuel : Nat) (T : ReqType) (di : Nat)
    (newer : Heap → Value × Heap) (w0 : Value)
    (hres : anyFuel h fuel T (some di) T.zero = some (w0, false)) :
    mustNeed h fuel T di newer
      = some ((newer h).1, heapAdd (newer h).2 di (newer h).1) := by
  rw [mustNeed, hres]

/-- `MustNeed` against a transient registry constructs a brand-new instance
whether or not resolution hit a cached one (modelled from the spec). -/
theorem mustNeed_transient (h : Heap) (fuel : Nat) (T : ReqType) (di : Nat)
    (newer : Heap → Value × Heap) (res : Value × Bool)
    (hres : anyFuel h fuel T (some di) T.zero = some res)
    (htr : (h.infos (h.ptrInfo di)).transient = true) :
    mustNeed h fuel T di newer
      = some ((newer h).1, heapAdd (newer h).2 di (newer h).1) := by
  obtain ⟨v, b⟩ := res
  cases b with
  | true => rw [mustNeed, hres]; simp [htr]
  | false => rw [mustNeed, hres]

theorem exact_sat_reg_false {t : String}
    (ht : t ≠ "*dependency_injection.DependencyInjection") (q : Nat) :
    (exactReq t).sat (Value.reg q) = false := by
  simp only [exactReq, Value.typeString, beq_eq_false_iff_ne, ne_eq]
  exact fun he => ht he.symm

theorem exact_key_ne_regTypeKey {t : String}
    (ht : t ≠ "*dependency_injection.DependencyInjection") :
    (exactReq t).key ≠ regTypeKey := by
  intro he
  exact ht (star_append_inj (he.trans
    (show regTypeKey
        = "*" ++ "*dependency_injection.DependencyInjection" from rfl)))

/-- C5: against a child built by `NewScopedDependencyInjection` over a root
populated with ordinary instances, two sequential `MustNeed` calls for a
type not previously resolvable return the identical instance: the first
call constructs instance `Value.obj t 1`, registers it in the child, and
the second call hands the cached instance back, leaving the world exactly
as the first call left it. -/
theorem c5_scoped_caches (objs : List (String × Nat)) (t : String)
    (ht : t ≠ "*dependency_injection.DependencyInjection")
    (hno : ∀ si ∈ objs, si.1 ≠ t) :
    ∃ h2,
      mustNeed (scopedOn (rootWith objs) 0).2 3 (exactReq t)
          (scopedOn (rootWith objs) 0).1 (allocCtor t)
        = some (Value.obj t 1, h2)
      ∧ mustNeed h2 3 (exactReq t) (scopedOn (rootWith objs) 0).1 (allocCtor t)
        = some (Value.obj t 1, h2)
      ∧ Value.obj t 1 ∈
          (h2.infos (h2.ptrInfo (scopedOn (rootWith objs) 0).1)).buckets
            ("*" ++ t) := by
  have hc1 : (scopedOn (rootWith objs) 0).1 = 1 := by
    rw [scopedOn_fst, rootWith_nextPtr]
  rw [hc1]
  set h1 := (scopedOn (rootWith objs) 0).2 with hh1
  have hF2 : h1.ptrInfo 1 = 1 := by
    rw [hh1, scopedOn_ptrInfo, rootWith_nextPtr, if_pos rfl, rootWith_nextInfo]
  have hF3 : h1.infos 1 = addToDI emptyDI (Value.reg 0) := by
    rw [hh1, scopedOn_infos, rootWith_nextInfo, if_pos rfl]
  have hF4 : h1.ptrInfo 0 = 0 := by
    rw [hh1, scopedOn_ptrInfo, rootWith_nextPtr, if_neg (by omega),
      rootWith_ptrInfo]
  have hF5 : h1.infos 0 = rootDI objs := by
    rw [hh1, scopedOn_infos, rootWith_nextInfo, if_neg (by omega),
      rootWith_infos_zero]
  have hkey := exact_key_ne_regTypeKey ht
  have hbuck : ∀ k, (h1.infos (h1.ptrInfo 1)).buckets k
      = (addToDI emptyDI (Value.reg 0)).buckets k := by
    intro k; rw [hF2, hF3]
  have hstep1 := link_delegate h1 1 0 (exactReq t) (exactReq t).zero 1 hbuck
    hkey (exact_sat_reg_false ht) (fun he => Value.noConfusion he)
  have hstep2 : anyFuel h1 2 (exactReq t) (some 0) (exactReq t).zero
      = some ((exactReq t).zero, false) := by
    refine resolve_fail_at h1 0 (exactReq t) (exactReq t).zero 0 ?_ ?_
    · intro k; rw [hF4, hF5]; exact findSat_rootDI_exact objs t hno k
    · intro k; rw [hF4, hF5]; exact findSat_rootDI_isReg objs k
  have hcall1 := mustNeed_notfound h1 3 (exactReq t) 1 (allocCtor t)
    (exactReq t).zero (hstep1.trans hstep2)
  have hobj : (allocCtor t h1).1 = Value.obj t 1 := by
    show Value.obj t h1.nextObj = Value.obj t 1
    rw [hh1, show (scopedOn (rootWith objs) 0).2.nextObj
      = (rootWith objs).nextObj from rfl, rootWith_nextObj]
  rw [hobj] at hcall1
  have hG1 : (heapAdd (allocCtor t h1).2 1 (Value.obj t 1)).ptrInfo 1 = 1 := by
    show h1.ptrInfo 1 = 1
    exact hF2
  have hG2 : (heapAdd (allocCtor t h1).2 1 (Value.obj t 1)).infos
      ((heapAdd (allocCtor t h1).2 1 (Value.obj t 1)).ptrInfo 1)
      = addToDI (addToDI emptyDI (Value.reg 0)) (Value.obj t 1) := by
    rw [hG1]
    show (if 1 = (allocCtor t h1).2.ptrInfo 1 then
        addToDI ((allocCtor t h1).2.infos 1) (Value.obj t 1)
      else (allocCtor t h1).2.infos 1) = _
    rw [show (allocCtor t h1).2.ptrInfo 1 = h1.ptrInfo 1 from rfl, hF2,
      if_pos rfl, show (allocCtor t h1).2.infos 1 = h1.infos 1 from rfl, hF3]
  have hbucket2 : (addToDI (addToDI emptyDI (Value.reg 0))
      (Value.obj t 1)).buckets ("*" ++ t) = [Value.obj t 1] := by
    have hself := addToDI_buckets_self (addToDI emptyDI (Value.reg 0))
      (Value.obj t 1)
    rw [show (Value.obj t 1).typeString = t from rfl] at hself
    have hkey2 : ("*" ++ t : String) ≠ regTypeKey := hkey
    rw [hself, link_bucket_other 0 hkey2 (star_append_ne_empty t)]
    rfl
  refine ⟨heapAdd (allocCtor t h1).2 1 (Value.obj t 1), hcall1, ?_, ?_⟩
  · have hscanHit : findSat (exactReq t).sat
        (((heapAdd (allocCtor t h1).2 1 (Value.obj t 1)).infos
            ((heapAdd (allocCtor t h1).2 1 (Value.obj t 1)).ptrInfo 1)).buckets
          (exactReq t).key) = some (Value.obj t 1) := by
      rw [hG2, show (exactReq t).key = "*" ++ t from rfl, hbucket2]
      simp [findSat, exactReq, Value.typeString]
    have hhit := resolve_local_hit (heapAdd (allocCtor t h1).2 1
      (Value.obj t 1)) 1 (exactReq t) (exactReq t).zero (Value.obj t 1) 2
      hscanHit
    refine mustNeed_found _ 3 (exactReq t) 1 (allocCtor t) (Value.obj t 1)
      hhit ?_
    rw [hG2]
    rfl
  · rw [hG2, hbucket2]
    exact List.mem_singleton.mpr rfl

/-- Witness for C5: a root holding a `main.Cfg` instance, a scoped child,
two `MustNeed` calls for `main.Svc`. -/
theorem c5_scoped_caches_witness :
    ((("main.Svc" : String) ≠ "*dependency_injection.DependencyInjection")
        ∧ ∀ si ∈ [(("main.Cfg" : String), (5 : Nat))], si.1 ≠ "main.Svc") ∧
      ∃ h2,
        mustNeed (scopedOn (rootWith [("main.Cfg", 5)]) 0).2 3
            (exactReq "main.Svc") (scopedOn (rootWith [("main.Cfg", 5)]) 0).1
            (allocCtor "main.Svc")
          = some (Value.obj "main.Svc" 1, h2)
        ∧ mustNeed h2 3 (exactReq "main.Svc")
            (scopedOn (rootWith [("main.Cfg", 5)]) 0).1 (allocCtor "main.Svc")
          = some (Value.obj "main.Svc" 1, h2)
        ∧ Value.obj "main.Svc" 1 ∈
            (h2.infos (h2.ptrInfo (scopedOn (rootWith [("main.Cfg", 5)]) 0).1)).buckets
              ("*" ++ "main.Svc") :=
  ⟨⟨by decide, by decide⟩,
    c5_scoped_caches [("main.Cfg", 5)] "main.Svc" (by decide) (by decide)⟩

/-- C6: against a child built by `NewTransientDependencyInjection` over a
populated root, every `MustNeed` call constructs a brand-new instance — the
first call returns the freshly allocated instance 1, the second call
returns the freshly allocated instance 2 even though instance 1 was cached
in the child in between, and the two are distinct. -/
theorem c6_transient_fresh (objs : List (String × Nat)) (t : String)
    (ht : t ≠ "*dependency_injection.DependencyInjection") :
    ∃ h2 h3,
      mustNeed (transientOn (rootWith objs) 0).2 3 (exactReq t)
          (transientOn (rootWith objs) 0).1 (allocCtor t)
        = some (Value.obj t 1, h2)
      ∧ mustNeed h2 3 (exactReq t) (transientOn (rootWith objs) 0).1
          (allocCtor t)
        = some (Value.obj t 2, h3)
      ∧ Value.obj t 1 ≠ Value.obj t 2 := by
  have hsc1 : (scopedOn (rootWith objs) 0).1 = 1 := by
    rw [scopedOn_fst, rootWith_nextPtr]
  have hc1 : (transientOn (rootWith objs) 0).1 = 1 := hsc1
  rw [hc1]
  set h1 := (transientOn (rootWith objs) 0).2 with hh1
  have hsF2 : (scopedOn (rootWith objs) 0).2.ptrInfo 1 = 1 := by
    rw [scopedOn_ptrInfo, rootWith_nextPtr, if_pos rfl, rootWith_nextInfo]
  have hsF3 : (scopedOn (rootWith objs) 0).2.infos 1
      = addToDI emptyDI (Value.reg 0) := by
    rw [scopedOn_infos, rootWith_nextInfo, if_pos rfl]
  have hF2 : h1.ptrInfo 1 = 1 := by
    rw [hh1]
    show (scopedOn (rootWith objs) 0).2.ptrInfo 1 = 1
    exact hsF2
  have hF3 : h1.infos 1
      = { addToDI emptyDI (Value.reg 0) with transient := true } := by
    rw [hh1]
    show (setTransient (scopedOn (rootWith objs) 0).2
        (scopedOn (rootWith objs) 0).1 true).infos 1 = _
    rw [hsc1]
    show (if 1 = (scopedOn (rootWith objs) 0).2.ptrInfo 1 then
        { (scopedOn (rootWith objs) 0).2.infos 1 with transient := true }
      else (scopedOn (rootWith objs) 0).2.infos 1) = _
    rw [hsF2, if_pos rfl, hsF3]
  have hF4 : h1.ptrInfo 0 = 0 := by
    rw [hh1]
    show (scopedOn (rootWith objs) 0).2.ptrInfo 0 = 0
    rw [scopedOn_ptrInfo, rootWith_nextPtr, if_neg (by omega), rootWith_ptrInfo]
  have hF5 : h1.infos 0 = rootDI objs := by
    rw [hh1]
    show (setTransient (scopedOn (rootWith objs) 0).2
        (scopedOn (rootWith objs) 0).1 true).infos 0 = _
    rw [hsc1]
    show (if 0 = (scopedOn (rootWith objs) 0).2.ptrInfo 1 then
        { (scopedOn (rootWith objs) 0).2.infos 0 with transient := true }
      else (scopedOn (rootWith objs) 0).2.infos 0) = _
    rw [hsF2, if_neg (by omega), scopedOn_infos, rootWith_nextInfo,
      if_neg (by omega), rootWith_infos_zero]
  have hkey := exact_key_ne_regTypeKey ht
  have hbuck : ∀ k, (h1.infos (h1.ptrInfo 1)).buckets k
      = (addToDI emptyDI (Value.reg 0)).buckets k := by
    intro k; rw [hF2, hF3]
  have hstep1 := link_delegate h1 1 0 (exactReq t) (exactReq t).zero 1 hbuck
    hkey (exact_sat_reg_false ht) (fun he => Value.noConfusion he)
  obtain ⟨res1, hres1⟩ : ∃ res,
      anyFuel h1 2 (exactReq t) (some 0) (exactReq t).zero = some res := by
    refine resolve_isSome_at h1 0 (exactReq t) (exactReq t).zero 0 ?_
    intro k; rw [hF4, hF5]; exact findSat_rootDI_isReg objs k
  have htr1 : (h1.infos (h1.ptrInfo 1)).transient = true := by
    rw [hF2, hF3]
  have hcall1 := mustNeed_transient h1 3 (exactReq t) 1 (allocCtor t) res1
    (hstep1.trans hres1) htr1
  have hobj1 : (allocCtor t h1).1 = Value.obj t 1 := by
    show Value.obj t h1.nextObj = Value.obj t 1
    rw [hh1, show (transientOn (rootWith objs) 0).2.nextObj
      = (rootWith objs).nextObj from rfl, rootWith_nextObj]
  rw [hobj1] at hcall1
  set h2 := heapAdd (allocCtor t h1).2 1 (Value.obj t 1) with hh2
  have hG1 : h2.ptrInfo 1 = 1 := by
    rw [hh2]
    show h1.ptrInfo 1 = 1
    exact hF2
  have hG2 : h2.infos (h2.ptrInfo 1)
      = addToDI { addToDI emptyDI (Value.reg 0) with transient := true }
          (Value.obj t 1) := by
    rw [hG1, hh2]
    show (if 1 = (allocCtor t h1).2.ptrInfo 1 then
        addToDI ((allocCtor t h1).2.infos 1) (Value.obj t 1)
      else (allocCtor t h1).2.infos 1) = _
    rw [show (allocCtor t h1).2.ptrInfo 1 = h1.ptrInfo 1 from rfl, hF2,
      if_pos rfl, show (allocCtor t h1).2.infos 1 = h1.infos 1 from rfl, hF3]
  have hbucket2 : (addToDI { addToDI emptyDI (Value.reg 0) with
      transient := true } (Value.obj t 1)).buckets ("*" ++ t)
      = [Value.obj t 1] := by
    have hself := addToDI_buckets_self
      { addToDI emptyDI (Value.reg 0) with transient := true } (Value.obj t 1)
    rw [show (Value.obj t 1).typeString = t from rfl] at hself
    rw [hself]
    have hkey2 : ("*" ++ t : String) ≠ regTypeKey := hkey
    have hlink : ({ addToDI emptyDI (Value.reg 0) with
        transient := true } : DI).buckets ("*" ++ t)
        = (addToDI emptyDI (Value.reg 0)).buckets ("*" ++ t) := rfl
    rw [hlink, link_bucket_other 0 hkey2 (star_append_ne_empty t)]
    rfl
  have hscanHit : findSat (exactReq t).sat
      ((h2.infos (h2.ptrInfo 1)).buckets (exactReq t).key)
      = some (Value.obj t 1) := by
    rw [hG2, show (exactReq t).key = "*" ++ t from rfl, hbucket2]
    simp [findSat, exactReq, Value.typeString]
  have hhit := resolve_local_hit h2 1 (exactReq t) (exactReq t).zero
    (Value.obj t 1) 2 hscanHit
  have htr2 : (h2.infos (h2.ptrInfo 1)).transient = true := by
    rw [hG2]
    rfl
  have hcall2 := mustNeed_transient h2 3 (exactReq t) 1 (allocCtor t)
    (Value.obj t 1, true) hhit htr2
  have hobj2 : (allocCtor t h2).1 = Value.obj t 2 := by
    show Value.obj t h2.nextObj = Value.obj t 2
    rw [hh2, show (heapAdd (allocCtor t h1).2 1 (Value.obj t 1)).nextObj
      = h1.nextObj + 1 from rfl, hh1,
      show (transientOn (rootWith objs) 0).2.nextObj
        = (rootWith objs).nextObj from rfl, rootWith_nextObj]
  rw [hobj2] at hcall2
  exact ⟨h2, heapAdd (allocCtor t h2).2 1 (Value.obj t 2), hcall1, hcall2,
    by simp⟩

/-- Witness for C6: empty root, transient child, two `MustNeed` calls for
`main.Svc` yield instances 1 and 2. -/
theorem c6_transient_fresh_witness :
    ((("main.Svc" : String) ≠ "*dependency_injection.DependencyInjection")) ∧
      ∃ h2 h3,
        mustNeed (transientOn (rootWith []) 0).2 3 (exactReq "main.Svc")
            (transientOn (rootWith []) 0).1 (allocCtor "main.Svc")
          = some (Value.obj "main.Svc" 1, h2)
        ∧ mustNeed h2 3 (exactReq "main.Svc") (transientOn (rootWith []) 0).1
            (allocCtor "main.Svc")
          = some (Value.obj "main.Svc" 2, h3)
        ∧ Value.obj "main.Svc" 1 ≠ Value.obj "main.Svc" 2 :=
  ⟨by decide, c6_transient_fresh [] "main.Svc" (by decide)⟩

/-! ### The pooled lifetime (claim C7) -/

theorem heapAdd_ptrInfo (h : Heap) (p : Nat) (v : Value) :
    (heapAdd h p v).ptrInfo = h.ptrInfo := rfl

theorem heapAdd_infos (h : Heap) (p : Nat) (v : Value) (i : Nat) :
    (heapAdd h p v).infos i
      = if i = h.ptrInfo p then addToDI (h.infos i) v else h.infos i := rfl

theorem allocPtr_fst (h : Heap) (i : Nat) : (allocPtr h i).1 = h.nextPtr := rfl

theorem allocPtr_ptrInfo (h : Heap) (i q : Nat) :
    (allocPtr h i).2.ptrInfo q = if q = h.nextPtr then i else h.ptrInfo q := rfl

theorem allocPtr_infos (h : Heap) (i : Nat) :
    (allocPtr h i).2.infos = h.infos := rfl

theorem newDI_fst (h : Heap) : (newDI h).1 = h.nextPtr := rfl

theorem newDI_ptrInfo (h : Heap) (q : Nat) :
    (newDI h).2.ptrInfo q
      = if q = h.nextPtr then h.nextInfo else h.ptrInfo q := rfl

theorem newDI_infos (h : Heap) (i : Nat) :
    (newDI h).2.infos i = if i = h.nextInfo then emptyDI else h.infos i := rfl

theorem pooledCtor_fst (h : Heap) (p : Nat) :
    (pooledCtor h p).1 = Value.regStruct (some ((newDI h).2.ptrInfo p)) := rfl

theorem pooledCtor_ptrInfo (h : Heap) (p q : Nat) :
    (pooledCtor h p).2.ptrInfo q
      = if q = h.nextPtr + 1 then (newDI h).2.ptrInfo p
        else (newDI h).2.ptrInfo q := rfl

theorem pooledCtor_infos (h : Heap) (p i : Nat) :
    (pooledCtor h p).2.infos i
      = if i = (newDI h).2.ptrInfo p
        then addToDI ((newDI h).2.infos i) (Value.reg h.nextPtr)
        else (newDI h).2.infos i := by
  show (heapAdd (allocPtr (newDI h).2 ((newDI h).2.ptrInfo p)).2
      ((allocPtr (newDI h).2 ((newDI h).2.ptrInfo p)).1)
      (Value.reg (newDI h).1)).infos i = _
  rw [heapAdd_infos, allocPtr_fst, allocPtr_ptrInfo, if_pos rfl]
  rfl

theorem pooledCtor_nextPtr (h : Heap) (p : Nat) :
    (pooledCtor h p).2.nextPtr = h.nextPtr + 2 := rfl

theorem pooledCtor_nextInfo (h : Heap) (p : Nat) :
    (pooledCtor h p).2.nextInfo = h.nextInfo + 1 := rfl

theorem pooledCtor_nextObj (h : Heap) (p : Nat) :
    (pooledCtor h p).2.nextObj = h.nextObj := rfl

theorem pooled_of_mustNeed (h : Heap) (diPtr fuel i : Nat) (h1 : Heap)
    (hm : mustNeed h fuel structDIReq diPtr (fun h0 => pooledCtor h0 diPtr)
      = some (Value.regStruct (some i), h1)) :
    pooled h diPtr fuel = some (allocPtr h1 i) := by
  unfold pooled
  rw [hm]

/-- C7: over any root populated with ordinary instances, the duplicate
registry built by the first `NewPooledDependencyInjection` call shares the
parent's record (`Ptr(*parent)` copies the struct, not the record), is
cached in the parent's own buckets under the `DependencyInjection` struct
key by the ordinary `MustNeed` caching, and — with no garbage collection
in between, so the registered finalizer never runs — the second call
resolves that cached duplicate instead of constructing: it designates the
same record, allocates no new registry record and no new instance, and
leaves every record untouched. -/
theorem c7_pooled_cached (objs : List (String × Nat)) :
    ∃ p1 h1 p2 h2,
      pooled (rootWith objs) 0 3 = some (p1, h1)
      ∧ pooled h1 0 3 = some (p2, h2)
      ∧ h1.ptrInfo p1 = (rootWith objs).ptrInfo 0
      ∧ Value.regStruct (some (h1.ptrInfo p1)) ∈
          (h1.infos (h1.ptrInfo 0)).buckets
            "*dependency_injection.DependencyInjection"
      ∧ h2.ptrInfo p2 = h1.ptrInfo p1
      ∧ h2.infos = h1.infos
      ∧ h2.nextInfo = h1.nextInfo
      ∧ h2.nextObj = h1.nextObj := by
  have hres1 : anyFuel (rootWith objs) 3 structDIReq (some 0) structDIReq.zero
      = some (structDIReq.zero, false) := by
    refine resolve_fail_at (rootWith objs) 0 structDIReq structDIReq.zero 1 ?_ ?_
    · intro k; rw [rootWith_ptrInfo, rootWith_infos_zero]
      exact findSat_rootDI_isStruct objs k
    · intro k; rw [rootWith_ptrInfo, rootWith_infos_zero]
      exact findSat_rootDI_isReg objs k
  have hcall1 := mustNeed_notfound (rootWith objs) 3 structDIReq 0
    (fun h0 => pooledCtor h0 0) structDIReq.zero hres1
  have hPInfo : (newDI (rootWith objs)).2.ptrInfo 0 = 0 := by
    rw [newDI_ptrInfo, rootWith_nextPtr, if_neg (by omega), rootWith_ptrInfo]
  have hv1 : (pooledCtor (rootWith objs) 0).1 = Value.regStruct (some 0) := by
    rw [pooledCtor_fst, hPInfo]
  rw [hv1] at hcall1
  set K1 := heapAdd (pooledCtor (rootWith objs) 0).2 0
    (Value.regStruct (some 0)) with hK1
  have hpool1 := pooled_of_mustNeed (rootWith objs) 0 3 0 K1 hcall1
  -- contents of the shared root record after the first call
  have hK1p0 : K1.ptrInfo 0 = 0 := by
    rw [hK1, heapAdd_ptrInfo, pooledCtor_ptrInfo, rootWith_nextPtr,
      if_neg (by omega), hPInfo]
  have hCp0 : (pooledCtor (rootWith objs) 0).2.ptrInfo 0 = 0 := by
    rw [pooledCtor_ptrInfo, rootWith_nextPtr, if_neg (by omega), hPInfo]
  have hK1i0 : K1.infos 0
      = addToDI (addToDI (rootDI objs) (Value.reg (rootWith objs).nextPtr))
          (Value.regStruct (some 0)) := by
    rw [hK1, heapAdd_infos, hCp0, if_pos rfl, pooledCtor_infos, hPInfo,
      if_pos rfl, newDI_infos, rootWith_nextInfo, if_neg (by omega),
      rootWith_infos_zero]
  -- the duplicate's struct key and the scan of the root's exact bucket
  have hkeyS : structDIReq.key
      = "*" ++ (Value.regStruct (some (0 : Nat))).typeString := rfl
  have hnotmem : Value.regStruct (some 0) ∉
      (rootDI objs).buckets structDIReq.key := by
    intro hmem
    obtain ⟨si, -, he⟩ := mem_rootDI objs _ _ hmem
    exact Value.noConfusion he
  have hbucketD1 : (addToDI (addToDI (rootDI objs)
        (Value.reg (rootWith objs).nextPtr))
        (Value.regStruct (some 0))).buckets structDIReq.key
      = (rootDI objs).buckets structDIReq.key ++ [Value.regStruct (some 0)] := by
    have hself := addToDI_buckets_self
      (addToDI (rootDI objs) (Value.reg (rootWith objs).nextPtr))
      (Value.regStruct (some 0))
    rw [← hkeyS] at hself
    have hne1 : structDIReq.key
        ≠ "*" ++ (Value.reg (rootWith objs).nextPtr).typeString := by
      show structDIReq.key ≠ "*" ++ "*dependency_injection.DependencyInjection"
      decide
    have hne2 : structDIReq.key ≠ "" := by decide
    rw [hself, addToDI_buckets_other _ _ hne1 hne2]
    unfold bucketInsert
    rw [if_neg hnotmem]
  have hscanHit : findSat structDIReq.sat
      ((addToDI (addToDI (rootDI objs) (Value.reg (rootWith objs).nextPtr))
        (Value.regStruct (some 0))).buckets structDIReq.key)
      = some (Value.regStruct (some 0)) := by
    rw [hbucketD1, findSat_append_none (findSat_rootDI_isStruct objs _)]
    rfl
  -- the heap returned by the first call
  have hK1np : K1.nextPtr = 3 := by
    rw [hK1, show (heapAdd (pooledCtor (rootWith objs) 0).2 0
        (Value.regStruct (some 0))).nextPtr
      = (pooledCtor (rootWith objs) 0).2.nextPtr from rfl,
      pooledCtor_nextPtr, rootWith_nextPtr]
  set h1 := (allocPtr K1 0).2 with hh1
  have hH1p0 : h1.ptrInfo 0 = 0 := by
    rw [hh1, allocPtr_ptrInfo, hK1np, if_neg (by omega), hK1p0]
  have hH1i0 : h1.infos 0
      = addToDI (addToDI (rootDI objs) (Value.reg (rootWith objs).nextPtr))
          (Value.regStruct (some 0)) := by
    rw [hh1, show (allocPtr K1 0).2.infos = K1.infos from rfl, hK1i0]
  have hH1pp1 : h1.ptrInfo ((allocPtr K1 0).1) = 0 := by
    rw [hh1, allocPtr_fst, allocPtr_ptrInfo, if_pos rfl]
  -- the second call hits the cached duplicate
  have hhit : anyFuel h1 3 structDIReq (some 0) structDIReq.zero
      = some (Value.regStruct (some 0), true) := by
    refine resolve_local_hit h1 0 structDIReq structDIReq.zero
      (Value.regStruct (some 0)) 2 ?_
    rw [hH1p0, hH1i0]
    exact hscanHit
  have htrD1 : (h1.infos (h1.ptrInfo 0)).transient = false := by
    rw [hH1p0, hH1i0, addToDI_transient, addToDI_transient, rootDI_transient]
  have hcall2 := mustNeed_found h1 3 structDIReq 0
    (fun h0 => pooledCtor h0 0) (Value.regStruct (some 0)) hhit htrD1
  have hpool2 := pooled_of_mustNeed h1 0 3 0 h1 hcall2
  refine ⟨(allocPtr K1 0).1, h1, (allocPtr h1 0).1, (allocPtr h1 0).2,
    hpool1, hpool2, ?_, ?_, ?_, rfl, rfl, rfl⟩
  · rw [hH1pp1, rootWith_ptrInfo]
  · rw [hH1pp1, hH1p0, hH1i0,
      show ("*dependency_injection.DependencyInjection" : String)
        = structDIReq.key from rfl, hbucketD1]
    exact List.mem_append_right _ (List.mem_singleton.mpr rfl)
  · rw [allocPtr_fst, allocPtr_ptrInfo, if_pos rfl, hH1pp1]

end DepInj
